import Mathlib

/-!
Verification of the PR Standards Checker (`scripts/check-pr-standards.js`).

This file gives a shallow embedding of the review-reconciliation core of the
script — the diff anchor resolver (`parseDiffForValidLines`), the thread
matcher (`findMatchingThread`), the issue counter (`countIssues`), the review
body builder (`buildReviewBody`), the effect-emitting review poster
(`postReview`), and the post-analysis control flow of `main` — and proves or
refutes the specified properties about them.

Strings are modelled as Lean `String` (lists of characters); JavaScript
`undefined`/absent optional fields are modelled with `Option`, and JavaScript
truthiness of strings ("" is falsy) is made explicit at each use site.
`Char.toLower` models `String.prototype.toLowerCase` on the ASCII fragment.
-/

/-- `(s ++ t).data = s.data ++ t.data`, by unfolding `String.append`. -/
theorem strData_append (s t : String) : (s ++ t).data = s.data ++ t.data := by
  cases s; cases t; rfl

/-- JS `line.startsWith(pre)`. -/
def strStartsWith (s pre : String) : Bool :=
  pre.data.isPrefixOf s.data

/-- Boolean "pattern is a contiguous substring" on char lists
(JS `haystack.includes(needle)` with `pat` the needle). -/
def infixOfB (pat : List Char) : List Char → Bool
  | [] => pat.isEmpty
  | c :: cs => pat.isPrefixOf (c :: cs) || infixOfB pat cs

/-- JS `s.includes(sub)`. -/
def strIncludes (s sub : String) : Bool :=
  infixOfB sub.data s.data

/-- Strip a literal char-list pattern from the front, returning the rest
(`none` when the pattern does not match). Used to model the anchored parts
of the script's regular expressions. -/
def stripPrefixL : List Char → List Char → Option (List Char)
  | [], cs => some cs
  | _ :: _, [] => none
  | p :: ps, c :: cs => if p == c then stripPrefixL ps cs else none

/-- JS `diff.split('\n')` (accumulator-based; always yields at least one line). -/
def splitLinesAux : List Char → List Char → List String
  | [], acc => [String.mk acc.reverse]
  | c :: cs, acc =>
    if c == '\n' then String.mk acc.reverse :: splitLinesAux cs []
    else splitLinesAux cs (c :: acc)

/-- JS `diff.split('\n')`. -/
def splitLines (s : String) : List String :=
  splitLinesAux s.data []

/-- ASCII decimal digit test, as in the regex character class `\d`. -/
def isDigitB (c : Char) : Bool :=
  48 ≤ c.toNat && c.toNat ≤ 57

/-- Greedy `\d*`: longest digit run at the front, plus the remainder. -/
def takeDigits : List Char → List Char × List Char
  | [] => ([], [])
  | c :: cs =>
    if isDigitB c then
      let (d, r) := takeDigits cs
      (c :: d, r)
    else ([], c :: cs)

/-- Decimal value of a digit run, as `parseInt(_, 10)` on a digits-only string. -/
def digitsToNat (ds : List Char) : Nat :=
  ds.foldl (fun n c => n * 10 + (c.toNat - 48)) 0

/-- The optional regex group `(?:,\d+)?`: consume `,` followed by at least one
digit if present, otherwise leave the input unchanged (a lone `,` without
digits is left in place, which then makes the surrounding match fail exactly
as the regex would). -/
def skipOptCommaDigits (cs : List Char) : List Char :=
  match cs with
  | [] => []
  | c :: rest =>
    if c == ',' then
      let (d, r) := takeDigits rest
      if d.isEmpty then c :: rest else r
    else c :: rest

/-- The script's file-header regex `^\+\+\+ b\/(.+)$` applied to one line:
returns the captured path when the line is `+++ b/<nonempty>`. -/
def fileHeaderMatch (line : String) : Option String :=
  match stripPrefixL "+++ b/".data line.data with
  | none => none
  | some rest => if rest.isEmpty then none else some (String.mk rest)

/-- The script's hunk-header regex `^@@ -\d+(?:,\d+)? \+(\d+)(?:,\d+)? @@`
applied to one line: returns the new-side start line number (the capture)
when the line is a hunk header. -/
def hunkMatch (line : String) : Option Nat :=
  match stripPrefixL "@@ -".data line.data with
  | none => none
  | some r1 =>
    let (d1, r2) := takeDigits r1
    if d1.isEmpty then none
    else
      let r3 := skipOptCommaDigits r2
      match stripPrefixL " +".data r3 with
      | none => none
      | some r4 =>
        let (d2, r5) := takeDigits r4
        if d2.isEmpty then none
        else
          let r6 := skipOptCommaDigits r5
          match stripPrefixL " @@".data r6 with
          | none => none
          | some _ => some (digitsToNat d2)

/-- The `Map<path, Set<line>>` of the script, as an insertion-ordered
association list with unique keys. Line numbers are `Int` because the script's
counter `parseInt(start) - 1` is ordinary JS arithmetic and may be negative. -/
abbrev AnchorMap := List (String × List Int)

/-- JS `validLines.has(file)`. -/
def hasFile (m : AnchorMap) (f : String) : Bool :=
  m.any (fun e => e.1 == f)

/-- JS `validLines.get(file)` (`none` models `undefined`). -/
def lookupAnchors (m : AnchorMap) (f : String) : Option (List Int) :=
  match m.find? (fun e => e.1 == f) with
  | some e => some e.2
  | none => none

/-- JS `Set.add`: append if not already present. -/
def setInsert (ls : List Int) (n : Int) : List Int :=
  if ls.contains n then ls else ls ++ [n]

/-- `validLines.get(file).add(n)` on an entry known to exist (keys are unique,
so updating every entry with the key is the same as updating the one). -/
def addAnchor (m : AnchorMap) (f : String) (n : Int) : AnchorMap :=
  m.map (fun e => if e.1 == f then (e.1, setInsert e.2 n) else e)

/-- The loop state of `parseDiffForValidLines`. `lookupError` records whether
the JS code would have thrown a `TypeError` by calling `.add` on the
`undefined` result of `validLines.get(currentFile)`; once set, no further
statements of the loop execute (mirroring exception semantics). -/
structure DiffState where
  validLines : AnchorMap
  currentFile : Option String
  newLineNum : Int
  lookupError : Bool
deriving Repr, DecidableEq

def initDiffState : DiffState :=
  { validLines := [], currentFile := none, newLineNum := 0, lookupError := false }

/-- One iteration of the `for (const line of diff.split('\n'))` loop of
`parseDiffForValidLines` (source lines 902-934). -/
def stepDiffLine (st : DiffState) (line : String) : DiffState :=
  if st.lookupError then st
  else
    match fileHeaderMatch line with
    | some f =>
      { st with
        currentFile := some f,
        validLines := if hasFile st.validLines f then st.validLines
                      else st.validLines ++ [(f, [])] }
    | none =>
      match hunkMatch line with
      | some start => { st with newLineNum := (start : Int) - 1 }
      | none =>
        match st.currentFile with
        | none => st
        | some f =>
          if strStartsWith line "+" && !(strStartsWith line "+++") then
            let n := st.newLineNum + 1
            if hasFile st.validLines f then
              { st with newLineNum := n, validLines := addAnchor st.validLines f n }
            else { st with lookupError := true }
          else if strStartsWith line " " then
            let n := st.newLineNum + 1
            if hasFile st.validLines f then
              { st with newLineNum := n, validLines := addAnchor st.validLines f n }
            else { st with lookupError := true }
          else st

/-- The whole loop of `parseDiffForValidLines`, returning the final state. -/
def diffRun (diff : String) : DiffState :=
  (splitLines diff).foldl stepDiffLine initDiffState

/-- `parseDiffForValidLines(diff)`: the returned `Map<path, Set<line>>`. -/
def parseDiffForValidLines (diff : String) : AnchorMap :=
  (diffRun diff).validLines

/-- The placement test of `postReview`:
`fileLines && fileLines.has(finding.line)`. -/
def anchorHas (m : AnchorMap) (p : String) (l : Int) : Bool :=
  match lookupAnchors m p with
  | some ls => ls.contains l
  | none => false

/-- All (file, line) anchor pairs of a map, used to state that a processing
step adds no anchor to any file's set. -/
def allAnchors (m : AnchorMap) : List (String × Int) :=
  m.flatMap (fun e => e.2.map (fun n => (e.1, n)))

example : hunkMatch "@@ -10,3 +10,4 @@" = some 10 := by decide
example : fileHeaderMatch "+++ b/src/x.ts" = some "src/x.ts" := by decide
example : fileHeaderMatch "+++ /dev/null" = none := by decide
example :
    parseDiffForValidLines
      "+++ b/src/x.ts\n@@ -10,3 +10,4 @@\n ctxA\n+added1\n+added2\n ctxB"
      = [("src/x.ts", [10, 11, 12, 13])] := by decide

/-! ## Finding normalization and thread matching -/

/-- The normalizer inside `findMatchingThread`:
`s => s.toLowerCase().replace(/[^a-z0-9]/g, '')`. `Char.toLower` models
`toLowerCase` on the ASCII fragment; the filter keeps exactly the regex
class `[a-z0-9]`. -/
def normKey (s : String) : String :=
  String.mk ((s.data.map Char.toLower).filter
    (fun c => (97 ≤ c.toNat && c.toNat ≤ 122) || (48 ≤ c.toNat && c.toNat ≤ 57)))

/-- A bot-authored open review thread as assembled by `getReviewThreads`
(only the fields the reconciliation logic reads). -/
structure Thread where
  threadId : String
  firstCommentId : Nat
  path : String
  line : Int
  botTitle : String
  botBody : String
deriving Repr, DecidableEq

/-- Tier-1 predicate of `findMatchingThread`: exact normalized-title match. -/
def exactPred (title : String) (t : Thread) : Bool :=
  normKey t.botTitle == normKey title

/-- Tier-2 predicate of `findMatchingThread`: substring match in either
direction (`nt.includes(normTitle) || normTitle.includes(nt)`). -/
def substrPred (title : String) (t : Thread) : Bool :=
  strIncludes (normKey t.botTitle) (normKey title) || strIncludes (normKey title) (normKey t.botTitle)

/-- `findMatchingThread(threads, title, filePath)` (source lines 859-881).
`filePath = none` models passing `null`/`undefined`; the tier-3 guard
`if (filePath)` is JS-truthy, so an empty-string path also skips tier 3. -/
def findMatchingThread (threads : List Thread) (title : String)
    (filePath : Option String) : Option Thread :=
  match threads.find? (exactPred title) with
  | some m => some m
  | none =>
    match threads.find? (substrPred title) with
    | some m => some m
    | none =>
      match filePath with
      | some fp =>
        if fp == "" then none else threads.find? (fun t => t.path == fp)
      | none => none

/-! ## Findings, analysis data, and issue counting -/

/-- One finding object from the model's JSON. `body`/`bump_message` are
`Option` because the re-review schema omits them on some variants
(`none` models an absent JS property, i.e. `undefined`). -/
structure Finding where
  priority : String
  title : String
  path : String
  line : Int
  body : Option String
  bump_message : Option String
deriving Repr, DecidableEq

/-- The parsed analysis JSON. Absent arrays are modelled as `[]` (the code
reads every array as `data.x || []` or guards with `?.length`), and absent
strings as `""` (falsy). `status` is whatever string the model produced. -/
structure AnalysisData where
  status : String
  summary : String
  findings : List Finding
  persisting : List Finding
  new_findings : List Finding
  resolved : List String
  accepted_explanations : List String
  general_notes : List String
deriving Repr, DecidableEq

/-- The concatenation `[...findings, ...persisting, ...new_findings]`
at the top of `countIssues`. -/
def allFindings (data : AnalysisData) : List Finding :=
  data.findings ++ data.persisting ++ data.new_findings

/-- The record returned by `countIssues`. -/
structure IssueCounts where
  highPriorityCount : Nat
  mediumPriorityCount : Nat
  lowPriorityCount : Nat
  totalIssues : Nat
  shouldBlock : Bool
deriving Repr, DecidableEq

/-- `countIssues(data)` (source lines 957-972). -/
def countIssues (data : AnalysisData) : IssueCounts :=
  let all := allFindings data
  { highPriorityCount := (all.filter (fun f => f.priority == "must_fix")).length
    mediumPriorityCount := (all.filter (fun f => f.priority == "other")).length
    lowPriorityCount := 0
    totalIssues := all.length
    shouldBlock := data.status == "BLOCK_MERGE" }

/-! ## Review body construction -/

/-- `p => p === 'must_fix' ? '🔴' : '🟡'`. -/
def priorityIcon (p : String) : String :=
  if p == "must_fix" then "🔴" else "🟡"

/-- JS template interpolation of a possibly-absent property:
`undefined` prints as the string "undefined". -/
def jsToString (v : Option String) : String :=
  match v with
  | some s => s
  | none => "undefined"

/-- JS `a || b` on a possibly-absent string `a` ("" and `undefined` are falsy). -/
def jsOrElse (a : Option String) (b : String) : String :=
  match a with
  | some s => if s == "" then b else s
  | none => b

/-- Replace the first occurrence of a char (JS `s.replace('_', ' ')`
replaces only the first match of a string pattern). -/
def replaceFirstChar : List Char → Char → Char → List Char
  | [], _, _ => []
  | c :: cs, a, b => if c == a then b :: cs else c :: replaceFirstChar cs a b

/-- Heading of one entry of the "Additional Findings" section. -/
def unplaceableHead (f : Finding) : String :=
  "### " ++ priorityIcon f.priority ++ " " ++ f.title ++ " (`" ++ f.path ++ ":"
    ++ toString f.line ++ "`)\n\n"

/-- One entry of the "Additional Findings (lines not in diff)" section of
`buildReviewBody`: heading plus `${f.body || f.title}`. -/
def unplaceableSection (f : Finding) : String :=
  unplaceableHead f ++ jsOrElse f.body f.title ++ "\n\n"

/-- One bullet of the "New Issues" list on a re-review. -/
def newIssueLine (f : Finding) : String :=
  priorityIcon f.priority ++ " **" ++ f.title ++ "** (`" ++ f.path ++ ":"
    ++ toString f.line ++ "`)\n"

/-- One bullet of a Must Fix / Other group on a first review. -/
def groupLine (f : Finding) : String :=
  "- **" ++ f.title ++ "** (`" ++ f.path ++ ":" ++ toString f.line ++ "`)\n"

/-- The closing status / footer block appended at the end of
`buildReviewBody`: status line (with the first `_` of the status replaced by
a space and `''`/absent status shown as `UNKNOWN`), inline-comments note, and
the model attribution line. -/
def statusSection (data : AnalysisData) (modelId : String) : String :=
  let statusEmoji :=
    if data.status == "BLOCK_MERGE" then "🚫"
    else if data.status == "APPROVED" then "✅" else "❓"
  let statusText :=
    String.mk (replaceFirstChar (if data.status == "" then "UNKNOWN" else data.status).data '_' ' ')
  "**Status:** " ++ statusEmoji ++ " " ++ statusText ++ "\n\n"
    ++ "> Detailed findings are posted as inline comments on the relevant lines.\n\n"
    ++ "*🤖 Automated review using AI. Model: " ++ modelId
    ++ ". Human review still required for final approval.*"

/-- `buildReviewBody(data, isReReview, modelId, unplaceable)`
(source lines 978-1033). -/
def buildReviewBody (data : AnalysisData) (isReReview : Bool) (modelId : String)
    (unplaceable : List Finding) : String :=
  let body := if isReReview then "# 🔍 PR Standards Check (Re-review)\n\n"
              else "# 🔍 PR Standards Check\n\n"
  let body := if data.summary == "" then body else body ++ data.summary ++ "\n\n"
  let body :=
    if isReReview then
      let body :=
        if data.persisting.length != 0 then
          body ++ "> ⏳ **" ++ toString data.persisting.length
            ++ " issue(s) from the previous review are still open** — see the existing inline comments above.\n\n"
        else body
      let body :=
        if data.new_findings.length != 0 then
          (data.new_findings.foldl (fun b f => b ++ newIssueLine f)
            (body ++ "## 🆕 New Issues\n\n")) ++ "\n"
        else body
      let body :=
        if data.resolved.length != 0 then
          (data.resolved.foldl (fun b r => b ++ "- " ++ r ++ "\n")
            (body ++ "## ✅ Resolved\n\n")) ++ "\n"
        else body
      let body :=
        if data.accepted_explanations.length != 0 then
          (data.accepted_explanations.foldl (fun b r => b ++ "- " ++ r ++ "\n")
            (body ++ "## 💬 Accepted Explanations\n\n")) ++ "\n"
        else body
      body
    else
      let body :=
        let group := data.findings.filter (fun f => f.priority == "must_fix")
        if group.length != 0 then
          (group.foldl (fun b f => b ++ groupLine f) (body ++ "## 🔴 Must Fix\n\n")) ++ "\n"
        else body
      let body :=
        let group := data.findings.filter (fun f => f.priority == "other")
        if group.length != 0 then
          (group.foldl (fun b f => b ++ groupLine f) (body ++ "## 🟡 Other\n\n")) ++ "\n"
        else body
      body
  let body :=
    if unplaceable.length != 0 then
      unplaceable.foldl (fun b f => b ++ unplaceableSection f)
        (body ++ "## ⚠️ Additional Findings (lines not in diff)\n\n")
    else body
  body ++ statusSection data modelId

/-! ## Effects and the review poster -/

/-- One element of the review payload's `comments` array. -/
structure InlineComment where
  path : String
  line : Int
  side : String
  body : String
deriving Repr, DecidableEq

/-- The remote effects the script performs, in the order it performs them.
`review` is the single batched review submission (top-level body = the
summary, plus the inline comment array); `reply` is a reply on an existing
inline comment (bumps and accept-acknowledgements); `resolve` resolves a
thread; `comment` is a plain conversation comment. -/
inductive Effect where
  | review (body : String) (comments : List InlineComment)
  | reply (commentId : Nat) (body : String)
  | resolve (threadId : String)
  | comment (body : String)
  | addLabel
  | removeLabel
deriving Repr, DecidableEq

def Effect.isReview : Effect → Bool
  | .review _ _ => true
  | _ => false

def Effect.isReply : Effect → Bool
  | .reply _ _ => true
  | _ => false

def Effect.isResolve : Effect → Bool
  | .resolve _ => true
  | _ => false

/-- The Boolean form of the claimed effect ordering: after the first review
submission, no further reply or resolve effect occurs (equivalently, every
bump reply and thread-resolve precedes the summary). -/
def reconcileBeforeSummary (effs : List Effect) : Bool :=
  ((effs.dropWhile (fun e => !e.isReview)).drop 1).all
    (fun e => !(e.isReply || e.isResolve))

/-- `isReReview ? (data.new_findings || []) : (data.findings || [])`. -/
def findingsForInline (data : AnalysisData) (isReReview : Bool) : List Finding :=
  if isReReview then data.new_findings else data.findings

/-- The inline comment built for a placeable finding in `postReview`. -/
def mkInlineComment (f : Finding) : InlineComment :=
  { path := f.path, line := f.line, side := "RIGHT",
    body := priorityIcon f.priority ++ " **" ++ f.title ++ "**\n\n" ++ jsToString f.body }

/-- The bump reply body for a persisting finding
(`finding.bump_message ? ... : ...`, JS-truthy). -/
def bumpBody (f : Finding) : String :=
  let icon := priorityIcon f.priority
  match f.bump_message with
  | some m =>
    if m == "" then icon ++ " **Still open.** This issue has not been resolved yet."
    else icon ++ " **Still open.** " ++ m
  | none => icon ++ " **Still open.** This issue has not been resolved yet."

/-- What `postReview` computes and emits. `inline` and `unplaceable` are the
partition of the inline-candidate findings; `effects` is the ordered list of
remote calls the function makes. -/
structure ReviewOutcome where
  inline : List InlineComment
  unplaceable : List Finding
  effects : List Effect
deriving Repr, DecidableEq

/-- `postReview(data, diff, modelId, isReReview, reviewThreads)`
(source lines 1041-1118), as the ordered list of remote effects it performs.
The review submission happens first; on a re-review it is followed by bump
replies for `persisting`, resolves for `resolved`, and
acknowledge-then-resolve pairs for `accepted_explanations` (unmatched titles
are logged and skipped). -/
def postReview (data : AnalysisData) (diff : String) (modelId : String)
    (isReReview : Bool) (reviewThreads : List Thread) : ReviewOutcome :=
  let validLines := parseDiffForValidLines diff
  let candidates := findingsForInline data isReReview
  let inlineComments :=
    (candidates.filter (fun f => anchorHas validLines f.path f.line)).map mkInlineComment
  let unplaceable := candidates.filter (fun f => !anchorHas validLines f.path f.line)
  let reviewBody := buildReviewBody data isReReview modelId unplaceable
  let bumpEffects := data.persisting.flatMap (fun f =>
    match findMatchingThread reviewThreads f.title (some f.path) with
    | some t => [Effect.reply t.firstCommentId (bumpBody f)]
    | none => [])
  let resolveEffects := data.resolved.flatMap (fun title =>
    match findMatchingThread reviewThreads title none with
    | some t => [Effect.resolve t.threadId]
    | none => [])
  let acceptEffects := data.accepted_explanations.flatMap (fun title =>
    match findMatchingThread reviewThreads title none with
    | some t => [Effect.reply t.firstCommentId "✅ Explanation accepted. Resolving this comment.",
                 Effect.resolve t.threadId]
    | none => [])
  { inline := inlineComments
    unplaceable := unplaceable
    effects := Effect.review reviewBody inlineComments ::
      (if isReReview then bumpEffects ++ resolveEffects ++ acceptEffects else []) }

/-! ## JSON block extraction and the post-analysis control flow of `main` -/

/-- Suffix after the first occurrence of `pat` (`none` when `pat` does not
occur). Models the left-to-right scan of the regex engine. -/
def dropAfterFirst (pat : List Char) : List Char → Option (List Char)
  | [] => if pat.isEmpty then some [] else none
  | c :: cs =>
    if pat.isPrefixOf (c :: cs) then some ((c :: cs).drop pat.length)
    else dropAfterFirst pat cs

/-- Content before the first occurrence of `pat` (`none` when `pat` does not
occur); with `dropAfterFirst` this models the lazy capture `([\s\S]*?)`. -/
def takeUntilFirst (pat : List Char) : List Char → Option (List Char)
  | [] => if pat.isEmpty then some [] else none
  | c :: cs =>
    if pat.isPrefixOf (c :: cs) then some []
    else (takeUntilFirst pat cs).map (fun r => c :: r)

/-- The extraction regex of `parseAnalysisJSON`:
`rawText.match(/```json\n([\s\S]*?)\n```/)` — the text strictly between the
first fence opener and the first closing fence after it. -/
def extractJsonBlock (raw : String) : Option String :=
  match dropAfterFirst "```json\n".data raw.data with
  | none => none
  | some rest =>
    match takeUntilFirst "\n```".data rest with
    | none => none
    | some content => some (String.mk content)

/-- `parseAnalysisJSON(rawText)` (source lines 940-952): extract the fenced
JSON block, then `JSON.parse` it. `JSON.parse` plus the field reads are
modelled by the parameter `jsonParse` (returning `none` on a parse error);
the function returns `none` exactly when no block is found or parsing fails. -/
def parseAnalysisJSON (jsonParse : String → Option AnalysisData) (raw : String) :
    Option AnalysisData :=
  match extractJsonBlock raw with
  | none => none
  | some txt => jsonParse txt

/-- The fallback notice posted by `main`'s catch block when the analysis JSON
cannot be parsed (the thrown message is
'Analysis did not return a parseable JSON response'; the
`[Model ID will be shown]` placeholder does not occur in this text, so
`postComment`'s replace is the identity here). -/
def fallbackMessage : String :=
  "## PR Standards Check\n\n"
    ++ "⚠️ The automated PR standards check encountered an error and could not complete.\n\n"
    ++ "Please ensure a human reviewer checks this PR against our [team standards](.github/PR_STANDARDS.md).\n\n"
    ++ "Error: Analysis did not return a parseable JSON response"

/-- Body of `postSuccessComment`. -/
def successBody (prNumber modelId : String) : String :=
  "# ✅ PR Standards Check Passed\n\n" ++ "PR #" ++ prNumber
    ++ " meets all team standards. No issues found.\n\n"
    ++ "*🤖 Automated review using AI. Model: " ++ modelId
    ++ ". Human review still required for final approval.*"

/-- Body of `postGeneralNotes`. -/
def generalNotesBody (notes : List String) (modelId : String) : String :=
  (notes.foldl (fun b n => b ++ "- " ++ n ++ "\n") "## 📋 PR Standards — General Notes\n\n")
    ++ "\n*🤖 Automated review using AI. Model: " ++ modelId
    ++ ". Human review still required for final approval.*"

/-- Final outcome of a run: the ordered effects, the computed counts (absent
when the run aborted before counting), whether it exits with failure status,
and whether it took the fatal malformed-output path. -/
structure RunResult where
  effects : List Effect
  counts : Option IssueCounts
  exitFailure : Bool
  fatalError : Bool
deriving Repr, DecidableEq

/-- The control flow of `main` from the parsed analysis onward (source lines
1191-1253): a `none` parse throws, and the catch block posts the single
fallback notice and exits 1 before any reconciliation effect; otherwise the
review is posted (with bumps/resolves on a re-review, where
`isReReview = reviewThreads.length > 0`), general notes are posted if present,
and the issue counts decide failure/label/success. -/
def runFromParse (parsed : Option AnalysisData) (diff modelId prNumber : String)
    (reviewThreads : List Thread) (failureMode : String) : RunResult :=
  match parsed with
  | none =>
    { effects := [Effect.comment fallbackMessage], counts := none,
      exitFailure := true, fatalError := true }
  | some data =>
    let isReReview := reviewThreads.length != 0
    let rev := postReview data diff modelId isReReview reviewThreads
    let noteEffects :=
      if data.general_notes.length != 0 then
        [Effect.comment (generalNotesBody data.general_notes modelId)]
      else []
    let c := countIssues data
    if c.totalIssues != 0 || c.shouldBlock then
      if failureMode == "label" then
        { effects := rev.effects ++ noteEffects ++ [Effect.addLabel],
          counts := some c, exitFailure := false, fatalError := false }
      else
        { effects := rev.effects ++ noteEffects,
          counts := some c, exitFailure := true, fatalError := false }
    else
      { effects := rev.effects ++ noteEffects
          ++ [Effect.comment (successBody prNumber modelId), Effect.removeLabel],
        counts := some c, exitFailure := false, fatalError := false }

/-- The full pipeline from the raw model response onward. -/
def runFromRaw (jsonParse : String → Option AnalysisData) (raw : String)
    (diff modelId prNumber : String) (reviewThreads : List Thread)
    (failureMode : String) : RunResult :=
  runFromParse (parseAnalysisJSON jsonParse raw) diff modelId prNumber
    reviewThreads failureMode

/-! ## Helper lemmas -/

theorem isPrefixOf_cons_cons {a b : Char} {as bs : List Char} :
    (a :: as).isPrefixOf (b :: bs) = (a == b && as.isPrefixOf bs) := rfl

theorem stripPrefixL_isSome_imp :
    ∀ {ps l r : List Char}, stripPrefixL ps l = some r → ps.isPrefixOf l = true
  | [], _, _, _ => by simp
  | _ :: _, [], _, h => by simp [stripPrefixL] at h
  | p :: ps, c :: cs, r, h => by
    unfold stripPrefixL at h
    by_cases hpc : (p == c) = true
    · rw [isPrefixOf_cons_cons, hpc, Bool.true_and]
      rw [if_pos hpc] at h
      exact stripPrefixL_isSome_imp h
    · rw [if_neg hpc] at h
      exact absurd h (by simp)

/-- A string starting with char-list `c :: _` has that char at the head. -/
theorem data_head_of_isPrefixOf {s : String} {c : Char} {ps : List Char}
    (h : (c :: ps).isPrefixOf s.data = true) : ∃ t, s.data = c :: t := by
  cases hd : s.data with
  | nil => rw [hd] at h; simp [List.isPrefixOf] at h
  | cons b t =>
    rw [hd, isPrefixOf_cons_cons] at h
    have hc : c = b := eq_of_beq (Bool.and_elim_left h)
    exact ⟨t, by rw [hc]⟩

theorem fileHeaderMatch_head {line : String} {f : String}
    (h : fileHeaderMatch line = some f) : ∃ t, line.data = '+' :: t := by
  unfold fileHeaderMatch at h
  cases hsp : stripPrefixL "+++ b/".data line.data with
  | none => rw [hsp] at h; exact absurd h (by simp)
  | some rest =>
    exact data_head_of_isPrefixOf (s := line) (stripPrefixL_isSome_imp hsp)

theorem hunkMatch_head {line : String} {n : Nat}
    (h : hunkMatch line = some n) : ∃ t, line.data = '@' :: t := by
  unfold hunkMatch at h
  cases hsp : stripPrefixL "@@ -".data line.data with
  | none => rw [hsp] at h; exact absurd h (by simp)
  | some rest =>
    exact data_head_of_isPrefixOf (s := line) (stripPrefixL_isSome_imp hsp)

theorem fileHeaderMatch_eq_none_of_head {line : String} {c : Char} {t : List Char}
    (hd : line.data = c :: t) (hc : (('+' : Char) == c) = false) :
    fileHeaderMatch line = none := by
  unfold fileHeaderMatch
  have : stripPrefixL "+++ b/".data line.data = none := by
    rw [hd]
    show stripPrefixL ('+' :: "++ b/".data) (c :: t) = none
    unfold stripPrefixL
    rw [if_neg (by simp_all)]
  rw [this]

theorem hunkMatch_eq_none_of_head {line : String} {c : Char} {t : List Char}
    (hd : line.data = c :: t) (hc : (('@' : Char) == c) = false) :
    hunkMatch line = none := by
  unfold hunkMatch
  have : stripPrefixL "@@ -".data line.data = none := by
    rw [hd]
    show stripPrefixL ('@' :: "@ -".data) (c :: t) = none
    unfold stripPrefixL
    rw [if_neg (by simp_all)]
  rw [this]

/-- `strStartsWith line "+++ b/..."` implies `strStartsWith line "+++"`. -/
theorem fileHeaderMatch_eq_none_of_not_ppp {line : String}
    (h : strStartsWith line "+++" = false) : fileHeaderMatch line = none := by
  unfold fileHeaderMatch
  cases hsp : stripPrefixL "+++ b/".data line.data with
  | none => rfl
  | some rest =>
    exfalso
    have hpre := stripPrefixL_isSome_imp hsp
    rw [ List.isPrefixOf_iff_prefix] at hpre
    have h3 : "+++".data <+: "+++ b/".data := by decide
    have : strStartsWith line "+++" = true := by
      unfold strStartsWith
      rw [ List.isPrefixOf_iff_prefix]
      exact h3.trans hpre
    rw [this] at h
    exact absurd h (by simp)

/-- Extract the head character forced by a successful `startsWith`. -/
theorem startsWith_shape {line p : String} {c : Char} {ps : List Char}
    (hp : p.data = c :: ps) (h : strStartsWith line p = true) :
    ∃ t, line.data = c :: t := by
  unfold strStartsWith at h
  rw [hp] at h
  exact data_head_of_isPrefixOf h

/-- A `startsWith` against a single-char pattern fails on a mismatched head. -/
theorem startsWith_eq_false_of_head {line p : String} {c c0 : Char} {ps t : List Char}
    (hp : p.data = c0 :: ps) (hd : line.data = c :: t) (hne : (c0 == c) = false) :
    strStartsWith line p = false := by
  unfold strStartsWith
  rw [hp, hd, isPrefixOf_cons_cons, hne, Bool.false_and]

/-! ## Claim C4: diff anchor resolution -/

/-- C4: the diff anchor resolver adds to the current file's anchor set exactly
the new-file line numbers of `+` (added) and ` ` (context) lines — each such
line increments the running new-file counter and records the incremented
value — the counter is initialized by a hunk header to its new-side start
value minus one, a `-` (deleted) line changes nothing (so no deleted line is
ever in any anchor set), and on the spec's scenario diff
`@@ -10,3 +10,4 @@` / ` ctxA` / `+added1` / `+added2` / ` ctxB` the anchors
for the file are exactly {10, 11, 12, 13}. -/
theorem claim_C4 :
    (∀ st line, strStartsWith line "-" = true → stepDiffLine st line = st) ∧
    (∀ st line start, st.lookupError = false → hunkMatch line = some start →
      stepDiffLine st line = { st with newLineNum := (start : Int) - 1 }) ∧
    (∀ st line f, st.lookupError = false → st.currentFile = some f →
      hasFile st.validLines f = true →
      strStartsWith line "+" = true → strStartsWith line "+++" = false →
      stepDiffLine st line
        = { st with newLineNum := st.newLineNum + 1,
                    validLines := addAnchor st.validLines f (st.newLineNum + 1) }) ∧
    (∀ st line f, st.lookupError = false → st.currentFile = some f →
      hasFile st.validLines f = true → strStartsWith line " " = true →
      stepDiffLine st line
        = { st with newLineNum := st.newLineNum + 1,
                    validLines := addAnchor st.validLines f (st.newLineNum + 1) }) ∧
    parseDiffForValidLines "+++ b/src/x.ts\n@@ -10,3 +10,4 @@\n ctxA\n+added1\n+added2\n ctxB"
      = [("src/x.ts", [10, 11, 12, 13])] := by
  refine ⟨?_, ?_, ?_, ?_, by decide⟩
  · -- deleted lines leave the state untouched
    intro st line h
    obtain ⟨t, ht⟩ := startsWith_shape (p := "-") rfl h
    unfold stepDiffLine
    by_cases he : st.lookupError
    · rw [if_pos he]
    · rw [if_neg he,
        fileHeaderMatch_eq_none_of_head ht (by decide),
        hunkMatch_eq_none_of_head ht (by decide)]
      cases hcur : st.currentFile with
      | none => rfl
      | some f =>
        rw [startsWith_eq_false_of_head (p := "+") rfl ht (by decide),
          startsWith_eq_false_of_head (p := " ") rfl ht (by decide)]
        rfl
  · -- hunk headers reset the counter to start - 1
    intro st line start he hh
    obtain ⟨t, ht⟩ := hunkMatch_head hh
    unfold stepDiffLine
    rw [if_neg (by rw [he]; exact Bool.false_ne_true),
      fileHeaderMatch_eq_none_of_head ht (by decide), hh]
  · -- added lines increment the counter and add the new value
    intro st line f he hcur hhas hplus hppp
    obtain ⟨t, ht⟩ := startsWith_shape (p := "+") rfl hplus
    unfold stepDiffLine
    rw [if_neg (by rw [he]; exact Bool.false_ne_true),
      fileHeaderMatch_eq_none_of_not_ppp hppp,
      hunkMatch_eq_none_of_head ht (by decide), hcur]
    rw [hplus, hppp]
    simp only [Bool.not_false, Bool.and_self, if_true, if_pos hhas]
  · -- context lines increment the counter and add the new value
    intro st line f he hcur hhas hsp
    obtain ⟨t, ht⟩ := startsWith_shape (p := " ") rfl hsp
    unfold stepDiffLine
    rw [if_neg (by rw [he]; exact Bool.false_ne_true),
      fileHeaderMatch_eq_none_of_head ht (by decide),
      hunkMatch_eq_none_of_head ht (by decide), hcur,
      startsWith_eq_false_of_head (p := "+") rfl ht (by decide)]
    simp only [Bool.false_and, if_false, Bool.false_eq_true]
    rw [hsp, if_pos hhas]
    rw [if_pos rfl]

/-- State with one registered file, used to instantiate `claim_C4`. -/
def stC4W : DiffState :=
  { validLines := [("f.ts", [])], currentFile := some "f.ts",
    newLineNum := 0, lookupError := false }

theorem claim_C4_witness :
    stepDiffLine initDiffState "-gone" = initDiffState ∧
    stepDiffLine initDiffState "@@ -10,3 +10,4 @@"
      = { initDiffState with newLineNum := (10 : Int) - 1 } ∧
    stepDiffLine stC4W "+x"
      = { stC4W with newLineNum := stC4W.newLineNum + 1,
                     validLines := addAnchor stC4W.validLines "f.ts" (stC4W.newLineNum + 1) } ∧
    stepDiffLine stC4W " y"
      = { stC4W with newLineNum := stC4W.newLineNum + 1,
                     validLines := addAnchor stC4W.validLines "f.ts" (stC4W.newLineNum + 1) } :=
  ⟨claim_C4.1 initDiffState "-gone" (by decide),
   claim_C4.2.1 initDiffState "@@ -10,3 +10,4 @@" 10 rfl (by decide),
   claim_C4.2.2.1 stC4W "+x" "f.ts" rfl rfl (by decide) (by decide) (by decide),
   claim_C4.2.2.2.1 stC4W " y" "f.ts" rfl rfl (by decide) (by decide)⟩

/-! ## Branch equations for `stepDiffLine` -/

theorem stepDiffLine_err {st : DiffState} (line : String)
    (he : st.lookupError = true) : stepDiffLine st line = st := by
  unfold stepDiffLine
  rw [if_pos he]

theorem stepDiffLine_header {st : DiffState} {line f : String}
    (he : st.lookupError = false) (hf : fileHeaderMatch line = some f) :
    stepDiffLine st line
      = { st with currentFile := some f,
                  validLines := if hasFile st.validLines f then st.validLines
                                else st.validLines ++ [(f, [])] } := by
  unfold stepDiffLine
  rw [if_neg (by rw [he]; exact Bool.false_ne_true), hf]

theorem stepDiffLine_hunk {st : DiffState} {line : String} {start : Nat}
    (he : st.lookupError = false) (hf : fileHeaderMatch line = none)
    (hh : hunkMatch line = some start) :
    stepDiffLine st line = { st with newLineNum := (start : Int) - 1 } := by
  unfold stepDiffLine
  rw [if_neg (by rw [he]; exact Bool.false_ne_true), hf, hh]

theorem stepDiffLine_nofile {st : DiffState} {line : String}
    (he : st.lookupError = false) (hf : fileHeaderMatch line = none)
    (hh : hunkMatch line = none) (hcur : st.currentFile = none) :
    stepDiffLine st line = st := by
  unfold stepDiffLine
  rw [if_neg (by rw [he]; exact Bool.false_ne_true), hf, hh, hcur]

theorem stepDiffLine_content {st : DiffState} {line f : String}
    (he : st.lookupError = false) (hf : fileHeaderMatch line = none)
    (hh : hunkMatch line = none) (hcur : st.currentFile = some f)
    (hg : (strStartsWith line "+" && !(strStartsWith line "+++")
            || strStartsWith line " ") = true)
    (hhas : hasFile st.validLines f = true) :
    stepDiffLine st line
      = { st with newLineNum := st.newLineNum + 1,
                  validLines := addAnchor st.validLines f (st.newLineNum + 1) } := by
  unfold stepDiffLine
  rw [Bool.or_eq_true] at hg
  cases hg with
  | inl hp => simp [he, hf, hh, hcur, hp, hhas]
  | inr hs =>
    by_cases hp : (strStartsWith line "+" && !(strStartsWith line "+++")) = true
    · simp [he, hf, hh, hcur, hp, hhas]
    · simp [he, hf, hh, hcur, Bool.of_not_eq_true hp, hs, hhas]

theorem stepDiffLine_skip {st : DiffState} {line : String} {f : String}
    (he : st.lookupError = false) (hf : fileHeaderMatch line = none)
    (hh : hunkMatch line = none) (hcur : st.currentFile = some f)
    (hp : (strStartsWith line "+" && !(strStartsWith line "+++")) = false)
    (hs : strStartsWith line " " = false) :
    stepDiffLine st line = st := by
  unfold stepDiffLine
  simp [he, hf, hh, hcur, hp, hs]

/-! ## Claim C10: totality of the diff anchor resolver -/

/-- `addAnchor` never changes which files are present. -/
theorem hasFile_addAnchor (m : AnchorMap) (f g : String) (n : Int) :
    hasFile (addAnchor m f n) g = hasFile m g := by
  unfold hasFile addAnchor
  rw [List.any_map]
  congr 1
  funext e
  by_cases h : (e.1 == f) = true
  · simp [Function.comp, h]
  · simp [Function.comp, h]

/-- Loop invariant: no lookup error has occurred and the current file, when
set, has an entry in the map (so the JS `.get(currentFile).add(...)` always
finds a set). -/
def DiffInv (st : DiffState) : Prop :=
  st.lookupError = false ∧ ∀ f, st.currentFile = some f → hasFile st.validLines f = true

theorem step_preserves_inv (st : DiffState) (line : String) (h : DiffInv st) :
    DiffInv (stepDiffLine st line) := by
  obtain ⟨he, hcf⟩ := h
  cases hf : fileHeaderMatch line with
  | some f =>
    rw [stepDiffLine_header he hf]
    refine ⟨he, ?_⟩
    intro g hg
    obtain rfl : f = g := Option.some.inj hg
    by_cases hhas : hasFile st.validLines f = true
    · rw [if_pos hhas]
      exact hhas
    · rw [if_neg hhas]
      unfold hasFile
      rw [List.any_append]
      simp
  | none =>
    cases hh : hunkMatch line with
    | some start =>
      rw [stepDiffLine_hunk he hf hh]
      exact ⟨he, fun g hg => hcf g hg⟩
    | none =>
      cases hcur : st.currentFile with
      | none =>
        rw [stepDiffLine_nofile he hf hh hcur]
        exact ⟨he, hcf⟩
      | some f =>
        have hhas := hcf f hcur
        by_cases hg : (strStartsWith line "+" && !(strStartsWith line "+++")
            || strStartsWith line " ") = true
        · rw [stepDiffLine_content he hf hh hcur hg hhas]
          refine ⟨he, ?_⟩
          intro g hgf
          rw [hcur] at hgf
          obtain rfl : f = g := Option.some.inj hgf
          rw [hasFile_addAnchor]
          exact hhas
        · rw [Bool.or_eq_true, not_or] at hg
          rw [stepDiffLine_skip he hf hh hcur
            (Bool.of_not_eq_true hg.1) (Bool.of_not_eq_true hg.2)]
          exact ⟨he, hcf⟩

theorem foldl_preserves_inv (lines : List String) (st : DiffState) (h : DiffInv st) :
    DiffInv (lines.foldl stepDiffLine st) := by
  induction lines generalizing st with
  | nil => exact h
  | cons l ls ih => exact ih (stepDiffLine st l) (step_preserves_inv st l h)

/-- A non-header line processed while no file is current changes neither the
current file nor the map (only the counter may move). -/
theorem step_no_header (st : DiffState) (line : String)
    (hl : fileHeaderMatch line = none) (hcur : st.currentFile = none) :
    (stepDiffLine st line).currentFile = none ∧
    (stepDiffLine st line).validLines = st.validLines := by
  by_cases he : st.lookupError = true
  · rw [stepDiffLine_err line he]
    exact ⟨hcur, rfl⟩
  · have he' : st.lookupError = false := Bool.of_not_eq_true he
    cases hh : hunkMatch line with
    | some start =>
      rw [stepDiffLine_hunk he' hl hh]
      exact ⟨hcur, rfl⟩
    | none =>
      rw [stepDiffLine_nofile he' hl hh hcur]
      exact ⟨hcur, rfl⟩

theorem foldl_no_header (lines : List String) (st : DiffState)
    (hall : lines.all (fun l => (fileHeaderMatch l).isNone) = true)
    (hcur : st.currentFile = none) :
    (lines.foldl stepDiffLine st).validLines = st.validLines ∧
    (lines.foldl stepDiffLine st).currentFile = none := by
  induction lines generalizing st with
  | nil => exact ⟨rfl, hcur⟩
  | cons l ls ih =>
    rw [List.all_cons, Bool.and_eq_true] at hall
    have hl : fileHeaderMatch l = none := by
      have h1 := hall.1
      cases hfl : fileHeaderMatch l with
      | none => rfl
      | some f =>
        rw [hfl] at h1
        exact absurd h1 (by simp)
    have hstep := step_no_header st l hl hcur
    have hrest := ih (stepDiffLine st l) hall.2 hstep.1
    rw [List.foldl_cons]
    exact ⟨hrest.1.trans hstep.2, hrest.2⟩

/-- C10: the diff anchor resolver is total on arbitrary input: it never
dereferences a missing per-file set (the `lookupError` flag modelling the JS
`TypeError` on `.get(...).add` stays `false` on every input); content lines
before the first `+++ b/` header leave the map empty and contribute no
anchors; and a line starting with `+++` (a file header or `+++ /dev/null`)
never increments the new-line counter and never adds an anchor to any file's
set. -/
theorem claim_C10 :
    (∀ diff, (diffRun diff).lookupError = false) ∧
    (∀ lines : List String, lines.all (fun l => (fileHeaderMatch l).isNone) = true →
      (lines.foldl stepDiffLine initDiffState).validLines = [] ∧
      (lines.foldl stepDiffLine initDiffState).currentFile = none) ∧
    (∀ st line, strStartsWith line "+++" = true →
      (stepDiffLine st line).newLineNum = st.newLineNum ∧
      allAnchors (stepDiffLine st line).validLines = allAnchors st.validLines) := by
  refine ⟨?_, ?_, ?_⟩
  · intro diff
    refine (foldl_preserves_inv (splitLines diff) initDiffState ⟨rfl, ?_⟩).1
    intro f h
    exact absurd h (by simp [initDiffState])
  · intro lines hall
    exact foldl_no_header lines initDiffState hall rfl
  · intro st line h
    obtain ⟨t, ht⟩ := startsWith_shape (p := "+++") rfl h
    by_cases he : st.lookupError = true
    · rw [stepDiffLine_err line he]
      exact ⟨rfl, rfl⟩
    · have he' : st.lookupError = false := Bool.of_not_eq_true he
      cases hf : fileHeaderMatch line with
      | some f =>
        rw [stepDiffLine_header he' hf]
        refine ⟨rfl, ?_⟩
        by_cases hhas : hasFile st.validLines f = true
        · rw [if_pos hhas]
        · rw [if_neg hhas]
          unfold allAnchors
          rw [List.flatMap_append]
          simp
      | none =>
        have hh : hunkMatch line = none := hunkMatch_eq_none_of_head ht (by decide)
        cases hcur : st.currentFile with
        | none =>
          rw [stepDiffLine_nofile he' hf hh hcur]
          exact ⟨rfl, rfl⟩
        | some f =>
          rw [stepDiffLine_skip he' hf hh hcur
            (by rw [h]; simp)
            (startsWith_eq_false_of_head (p := " ") rfl ht (by decide))]
          exact ⟨rfl, rfl⟩

theorem claim_C10_witness :
    (diffRun "").lookupError = false ∧
    (((["hello"] : List String).all (fun l => (fileHeaderMatch l).isNone) = true) ∧
      ((["hello"] : List String).foldl stepDiffLine initDiffState).validLines = [] ∧
      ((["hello"] : List String).foldl stepDiffLine initDiffState).currentFile = none) ∧
    (strStartsWith "+++ /dev/null" "+++" = true ∧
      (stepDiffLine stC4W "+++ /dev/null").newLineNum = stC4W.newLineNum ∧
      allAnchors (stepDiffLine stC4W "+++ /dev/null").validLines
        = allAnchors stC4W.validLines) :=
  ⟨claim_C10.1 "",
   ⟨by decide, claim_C10.2.1 ["hello"] (by decide)⟩,
   ⟨by decide, claim_C10.2.2 stC4W "+++ /dev/null" (by decide)⟩⟩

/-! ## Claim C6: thread-matcher tier precedence -/

/-- C6: when the open-thread list contains an exact normalized-title match,
`findMatchingThread` returns the first such thread — tier 1 takes precedence
over any substring or same-path match that may also exist; and when no
thread matches by title at all (neither exactly nor by substring), the
result is the path fallback: the first open thread on the supplied path, or
`none` when no (truthy) path is supplied. -/
theorem claim_C6 (threads : List Thread) (title : String) (fp : Option String)
    (t : Thread) :
    (threads.find? (exactPred title) = some t →
      findMatchingThread threads title fp = some t) ∧
    (threads.all (fun u => !(exactPred title u || substrPred title u)) = true →
      findMatchingThread threads title fp
        = (match fp with
           | some p => if p == "" then none else threads.find? (fun u => u.path == p)
           | none => none)) := by
  constructor
  · intro h
    unfold findMatchingThread
    rw [h]
  · intro h
    have hall := List.all_eq_true.mp h
    have h1 : threads.find? (exactPred title) = none := by
      rw [List.find?_eq_none]
      intro x hx
      have hb := hall x hx
      rw [Bool.not_eq_eq_eq_not, Bool.not_true, Bool.or_eq_false_iff] at hb
      rw [hb.1]
      exact Bool.false_ne_true
    have h2 : threads.find? (substrPred title) = none := by
      rw [List.find?_eq_none]
      intro x hx
      have hb := hall x hx
      rw [Bool.not_eq_eq_eq_not, Bool.not_true, Bool.or_eq_false_iff] at hb
      rw [hb.2]
      exact Bool.false_ne_true
    unfold findMatchingThread
    rw [h1, h2]

/-- Threads instantiating `claim_C6`: the first substring-matches the probed
title, the second matches it exactly; tier 1 still wins. -/
def thW1 : Thread :=
  { threadId := "W1", firstCommentId := 1, path := "src/db.ts", line := 42,
    botTitle := "SQL Injection Risk Extended Version", botBody := "b1" }

def thW2 : Thread :=
  { threadId := "W2", firstCommentId := 2, path := "src/db.ts", line := 42,
    botTitle := "SQL Injection Risk", botBody := "b2" }

theorem claim_C6_witness :
    (([thW1, thW2].find? (exactPred "Sql injection risk!") = some thW2) ∧
      findMatchingThread [thW1, thW2] "Sql injection risk!" (some "src/db.ts")
        = some thW2) ∧
    (([thW2].all (fun u => !(exactPred "totally unrelated" u
        || substrPred "totally unrelated" u)) = true) ∧
      findMatchingThread [thW2] "totally unrelated" (some "src/db.ts")
        = [thW2].find? (fun u => u.path == "src/db.ts")) :=
  ⟨⟨by decide, (claim_C6 [thW1, thW2] "Sql injection risk!" (some "src/db.ts") thW2).1
      (by decide)⟩,
   ⟨by decide, (claim_C6 [thW2] "totally unrelated" (some "src/db.ts") thW2).2
      (by decide)⟩⟩

/-! ## Claim C9: findings whose title normalizes to the empty string -/

/-- A thread whose title also normalizes to "" but is not first in the list:
tier 1 returns it, so the matcher does not return the first thread. -/
def thC9a : Thread :=
  { threadId := "A", firstCommentId := 91, path := "a.ts", line := 1,
    botTitle := "Use logger", botBody := "b1" }

def thC9b : Thread :=
  { threadId := "B", firstCommentId := 92, path := "b.ts", line := 2,
    botTitle := "!!!", botBody := "b2" }

/-- C9 counterexample: the finding title `"???"` normalizes to the empty
string and the thread list is non-empty, yet the matcher returns the second
thread `thC9b` (whose title `"!!!"` also normalizes to ""), not the first
thread of the list — tier 1 fires before the tier-2 substring check the
claim appeals to. -/
theorem claim_C9_counterexample :
    normKey "???" = "" ∧
    findMatchingThread [thC9a, thC9b] "???" (some "a.ts") = some thC9b ∧
    [thC9a, thC9b].head? = some thC9a ∧
    thC9b ≠ thC9a := by decide

/-- C9 (amended): for a finding whose title normalizes to the empty string,
the matcher returns the first thread whose normalized title is also empty
(tier 1) if one exists, and otherwise the first thread of the list — the
tier-2 check succeeds on every thread because the empty string is a
substring of every normalized title — regardless of the finding's path. -/
theorem claim_C9_theorem (threads : List Thread) (title : String)
    (fp : Option String) (hnorm : normKey title = "") :
    findMatchingThread threads title fp
      = (match threads.find? (fun t => normKey t.botTitle == "") with
         | some t => some t
         | none => threads.head?) := by
  unfold findMatchingThread
  have hex : exactPred title = fun t => normKey t.botTitle == "" := by
    funext t
    unfold exactPred
    rw [hnorm]
  rw [hex]
  cases hfind : threads.find? (fun t => normKey t.botTitle == "") with
  | some t => rfl
  | none =>
    have hsub : threads.find? (substrPred title) = threads.head? := by
      have hp : ∀ t, substrPred title t = true := by
        intro t
        unfold substrPred
        rw [hnorm]
        have : strIncludes (normKey t.botTitle) "" = true := by
          unfold strIncludes
          cases (normKey t.botTitle).data with
          | nil => rfl
          | cons c cs => rfl
        rw [this, Bool.true_or]
      cases threads with
      | nil => rfl
      | cons x xs =>
        rw [List.find?_cons_of_pos xs (hp x)]
        rfl
    rw [hsub]
    cases threads with
    | nil =>
      cases fp with
      | none => rfl
      | some p =>
        by_cases hp0 : (p == "") = true
        · simp [hp0]
        · simp [hp0]
    | cons x xs => rfl

theorem claim_C9_witness :
    normKey "???" = "" ∧
    findMatchingThread [thC9a] "???" (some "zz.ts")
      = (match ([thC9a] : List Thread).find? (fun t => normKey t.botTitle == "") with
         | some t => some t
         | none => ([thC9a] : List Thread).head?) :=
  ⟨by decide, claim_C9_theorem [thC9a] "???" (some "zz.ts") (by decide)⟩

/-! ## Claim C1: run verdict -/

/-- One `other`-priority new finding with the model reporting `APPROVED`. -/
def findingC1 : Finding :=
  { priority := "other", title := "Minor naming issue", path := "src/a.ts",
    line := 3, body := some "Rename it.", bump_message := none }

def dataC1A : AnalysisData :=
  { status := "APPROVED", summary := "", findings := [], persisting := [],
    new_findings := [findingC1], resolved := [], accepted_explanations := [],
    general_notes := [] }

/-- `BLOCK_MERGE` status with zero findings of any priority. -/
def dataC1B : AnalysisData :=
  { status := "BLOCK_MERGE", summary := "", findings := [], persisting := [],
    new_findings := [], resolved := [], accepted_explanations := [],
    general_notes := [] }

/-- C1 counterexample. On `dataC1A` (one `other`-priority new finding, zero
must_fix, status `APPROVED`): the verdict is indeed not blocking, but the run
exits with failure under the default failure mode — contradicting "the run
does not fail". On `dataC1B` (status `BLOCK_MERGE`, zero must_fix findings):
the blocking verdict is `true` with no must_fix finding in `new ∪ persisting`
— contradicting the "only if" direction of the claimed iff, because the
verdict is read from the model's `status` field, not computed from the
findings. -/
theorem claim_C1_counterexample :
    ((countIssues dataC1A).shouldBlock = false ∧
      (countIssues dataC1A).highPriorityCount = 0 ∧
      (countIssues dataC1A).totalIssues = 1 ∧
      (runFromParse (some dataC1A) "" "m" "1" [] "fail").exitFailure = true) ∧
    ((countIssues dataC1B).shouldBlock = true ∧
      (countIssues dataC1B).highPriorityCount = 0 ∧
      (countIssues dataC1B).totalIssues = 0) :=
  ⟨⟨rfl, rfl, rfl, rfl⟩, ⟨rfl, rfl, rfl⟩⟩

/-- C1 (amended): the blocking verdict `shouldBlock` equals
`status === 'BLOCK_MERGE'` read verbatim from the parsed analysis object —
it is not recomputed from the finding priorities — and the run exits with
failure exactly when some finding of any priority exists or `shouldBlock`
is set, unless the failure mode is `label`; so `other`-priority findings,
while never turning the verdict to `BLOCK_MERGE`, do make the run fail. -/
theorem claim_C1_theorem (data : AnalysisData)
    (diff modelId prNumber failureMode : String) (threads : List Thread) :
    (countIssues data).shouldBlock = (data.status == "BLOCK_MERGE") ∧
    (runFromParse (some data) diff modelId prNumber threads failureMode).exitFailure
      = (((countIssues data).totalIssues != 0 || (countIssues data).shouldBlock)
          && !(failureMode == "label")) := by
  refine ⟨rfl, ?_⟩
  dsimp only [runFromParse]
  by_cases h : ((countIssues data).totalIssues != 0 || (countIssues data).shouldBlock) = true
  · rw [if_pos h]
    by_cases hm : (failureMode == "label") = true
    · rw [if_pos hm, h, hm]
      rfl
    · rw [if_neg hm, h, Bool.of_not_eq_true hm]
      rfl
  · rw [if_neg h, Bool.of_not_eq_true h]
    rfl

/-! ## Claim C5: priority values outside the enum -/

/-- A finding with a priority outside {must_fix, other}. -/
def findingC5 : Finding :=
  { priority := "critical", title := "Weird priority", path := "src/a.ts",
    line := 1, body := some "text", bump_message := none }

def dataC5 : AnalysisData :=
  { status := "APPROVED", summary := "", findings := [], persisting := [],
    new_findings := [findingC5], resolved := [], accepted_explanations := [],
    general_notes := [] }

/-- C5 counterexample: a finding whose priority is `"critical"` is not
rejected — the run takes no fatal malformed-output path (`fatalError =
false`), and the finding is silently counted: it raises `totalIssues` to 1
(failing the run) while contributing to neither the must-fix nor the other
count. -/
theorem claim_C5_counterexample :
    (runFromParse (some dataC5) "" "m" "1" [] "fail").fatalError = false ∧
    (countIssues dataC5).totalIssues = 1 ∧
    (countIssues dataC5).highPriorityCount = 0 ∧
    (countIssues dataC5).mediumPriorityCount = 0 ∧
    (runFromParse (some dataC5) "" "m" "1" [] "fail").exitFailure = true :=
  ⟨rfl, rfl, rfl, rfl, rfl⟩

/-- C5 (amended): a raw finding whose priority value is outside
{must_fix, other} is not rejected with a validation error — no fatal
malformed-output path is taken on its account — and it is not coerced
either: it is silently counted in `totalIssues` (so it still fails the run)
while appearing in neither the must-fix nor the other priority bucket. -/
theorem claim_C5_theorem (data : AnalysisData) (f : Finding)
    (diff modelId prNumber failureMode : String) (threads : List Thread)
    (h1 : f.priority ≠ "must_fix") (h2 : f.priority ≠ "other")
    (hmem : f ∈ allFindings data) :
    (runFromParse (some data) diff modelId prNumber threads failureMode).fatalError
      = false ∧
    1 ≤ (countIssues data).totalIssues ∧
    f ∉ (allFindings data).filter (fun g => g.priority == "must_fix") ∧
    f ∉ (allFindings data).filter (fun g => g.priority == "other") := by
  refine ⟨?_, ?_, ?_, ?_⟩
  · dsimp only [runFromParse]
    by_cases h : ((countIssues data).totalIssues != 0 || (countIssues data).shouldBlock) = true
    · rw [if_pos h]
      by_cases hm : (failureMode == "label") = true
      · rw [if_pos hm]
      · rw [if_neg hm]
    · rw [if_neg h]
  · have : allFindings data ≠ [] := List.ne_nil_of_mem hmem
    have hp := List.length_pos.mpr this
    exact hp
  · intro hmemf
    have := (List.mem_filter.mp hmemf).2
    exact h1 (by exact eq_of_beq this)
  · intro hmemf
    have := (List.mem_filter.mp hmemf).2
    exact h2 (by exact eq_of_beq this)

theorem claim_C5_witness :
    (findingC5.priority ≠ "must_fix" ∧ findingC5.priority ≠ "other" ∧
      findingC5 ∈ allFindings dataC5) ∧
    ((runFromParse (some dataC5) "" "m" "1" [] "fail").fatalError = false ∧
      1 ≤ (countIssues dataC5).totalIssues ∧
      findingC5 ∉ (allFindings dataC5).filter (fun g => g.priority == "must_fix") ∧
      findingC5 ∉ (allFindings dataC5).filter (fun g => g.priority == "other")) :=
  ⟨⟨by decide, by decide, by decide⟩,
   claim_C5_theorem dataC5 findingC5 "" "m" "1" "fail" []
     (by decide) (by decide) (by decide)⟩

/-! ## Claim C3: effect ordering -/

/-- Thread and persisting finding used for the C3 counterexample. -/
def threadC3 : Thread :=
  { threadId := "T3", firstCommentId := 31, path := "c.ts", line := 5,
    botTitle := "N plus one query", botBody := "x" }

def findingC3 : Finding :=
  { priority := "must_fix", title := "N plus one query", path := "c.ts",
    line := 5, body := none, bump_message := some "Still an issue." }

def dataC3 : AnalysisData :=
  { status := "BLOCK_MERGE", summary := "", findings := [],
    persisting := [findingC3], new_findings := [], resolved := [],
    accepted_explanations := [], general_notes := [] }

/-- C3 counterexample: on a re-review with one persisting finding matched to
an open thread, the emitted effect list is [review submission, bump reply] —
the summary (the review submission carrying the top-level body) comes first
and the bump reply comes after it, so it is false that every bump reply
precedes the summary. -/
theorem claim_C3_counterexample :
    ((postReview dataC3 "" "m" true [threadC3]).effects.map Effect.isReview
      = [true, false]) ∧
    ((postReview dataC3 "" "m" true [threadC3]).effects.map Effect.isReply
      = [false, true]) ∧
    reconcileBeforeSummary (postReview dataC3 "" "m" true [threadC3]).effects
      = false :=
  ⟨rfl, rfl, rfl⟩

/-- C3 (amended): in the ordered effect list of a reconciliation run the
batched review submission (the summary plus inline comments) is always the
first effect, and every bump reply, thread-resolve and accept-acknowledgement
comes after it; the summary body is computed from the analysis data alone, so
its counts are unaffected by this ordering. -/
theorem claim_C3_theorem (data : AnalysisData) (diff modelId : String)
    (isReReview : Bool) (threads : List Thread) :
    (postReview data diff modelId isReReview threads).effects.head?
      = some (Effect.review
          (buildReviewBody data isReReview modelId
            (postReview data diff modelId isReReview threads).unplaceable)
          (postReview data diff modelId isReReview threads).inline) ∧
    ((postReview data diff modelId isReReview threads).effects.drop 1).all
      (fun e => e.isReply || e.isResolve) = true := by
  constructor
  · rfl
  · dsimp only [postReview]
    rw [List.drop_one, List.tail_cons]
    cases isReReview with
    | false => rfl
    | true =>
      rw [if_pos rfl]
      rw [List.all_append, List.all_append, Bool.and_eq_true, Bool.and_eq_true]
      refine ⟨⟨?_, ?_⟩, ?_⟩
      · rw [List.all_eq_true]
        intro e he
        rw [List.mem_flatMap] at he
        obtain ⟨f, _, hef⟩ := he
        cases hm : findMatchingThread threads f.title (some f.path) with
        | some t =>
          rw [hm] at hef
          rw [List.mem_singleton] at hef
          rw [hef]
          rfl
        | none =>
          rw [hm] at hef
          exact absurd hef (List.not_mem_nil e)
      · rw [List.all_eq_true]
        intro e he
        rw [List.mem_flatMap] at he
        obtain ⟨title, _, hef⟩ := he
        cases hm : findMatchingThread threads title none with
        | some t =>
          rw [hm] at hef
          rw [List.mem_singleton] at hef
          rw [hef]
          rfl
        | none =>
          rw [hm] at hef
          exact absurd hef (List.not_mem_nil e)
      · rw [List.all_eq_true]
        intro e he
        rw [List.mem_flatMap] at he
        obtain ⟨title, _, hef⟩ := he
        cases hm : findMatchingThread threads title none with
        | some t =>
          rw [hm] at hef
          rw [List.mem_cons, List.mem_singleton] at hef
          cases hef with
          | inl h1 =>
            rw [h1]
            rfl
          | inr h1 =>
            rw [h1]
            rfl
        | none =>
          rw [hm] at hef
          exact absurd hef (List.not_mem_nil e)

/-! ## Claim C2: duplicate-comment invariant -/

/-- Open thread whose normalized title/path collide with the finding below. -/
def threadC2 : Thread :=
  { threadId := "T2", firstCommentId := 21, path := "a.ts", line := 3,
    botTitle := "SQL Injection Risk", botBody := "bad" }

/-- A model-reported *new* finding whose (title, path) normalizes to the
same key as the open thread `threadC2`. -/
def findingC2 : Finding :=
  { priority := "must_fix", title := "Sql injection risk!", path := "a.ts",
    line := 3, body := some "Still here.", bump_message := none }

def dataC2 : AnalysisData :=
  { status := "BLOCK_MERGE", summary := "", findings := [], persisting := [],
    new_findings := [findingC2], resolved := [], accepted_explanations := [],
    general_notes := [] }

def diffC2 : String := "+++ b/a.ts\n@@ -1,3 +1,3 @@\n ctx1\n ctx2\n ctx3"

/-- C2 counterexample: `findingC2`'s (title, path) normalizes to exactly the
key of the open thread `threadC2` (the matcher would even tier-1 match it),
yet because the model listed it under `new_findings`, the run posts it as a
new inline comment on the same run — the code never checks new findings
against open threads, so the claimed invariant fails. -/
theorem claim_C2_counterexample :
    normKey findingC2.title = normKey threadC2.botTitle ∧
    findingC2.path = threadC2.path ∧
    findMatchingThread [threadC2] findingC2.title (some findingC2.path)
      = some threadC2 ∧
    (postReview dataC2 diffC2 "m" true [threadC2]).inline
      = [mkInlineComment findingC2] := by
  refine ⟨by decide, by decide, by decide, by decide⟩

/-- C2 (amended): deduplication against open threads is driven by the model's
classification, not by the matcher: a finding listed under `persisting` whose
(title, path) the matcher resolves to an open thread is routed to a bump
reply on that thread and never becomes an inline comment — the inline
comments of a re-review run are exactly the placeable `new_findings` — but a
finding listed under `new_findings` is posted as a new inline comment even
when its key matches an open thread. -/
theorem claim_C2_theorem (data : AnalysisData) (diff modelId : String)
    (threads : List Thread) (f : Finding) (t : Thread)
    (hf : f ∈ data.persisting)
    (hm : findMatchingThread threads f.title (some f.path) = some t) :
    Effect.reply t.firstCommentId (bumpBody f)
      ∈ (postReview data diff modelId true threads).effects ∧
    (postReview data diff modelId true threads).inline
      = (data.new_findings.filter
          (fun g => anchorHas (parseDiffForValidLines diff) g.path g.line)).map
          mkInlineComment := by
  constructor
  · dsimp only [postReview]
    rw [if_pos rfl]
    apply List.mem_cons_of_mem
    apply List.mem_append_left
    apply List.mem_append_left
    rw [List.mem_flatMap]
    refine ⟨f, hf, ?_⟩
    rw [hm]
    exact List.mem_singleton.mpr rfl
  · rfl

/-- Persisting finding and matching thread instantiating `claim_C2_theorem`. -/
def findingC2P : Finding :=
  { priority := "other", title := "Hardcoded error message", path := "b.ts",
    line := 7, body := none, bump_message := none }

def threadC2P : Thread :=
  { threadId := "TP", firstCommentId := 77, path := "b.ts", line := 7,
    botTitle := "Hardcoded Error Message!", botBody := "msg" }

def dataC2P : AnalysisData :=
  { status := "APPROVED", summary := "", findings := [],
    persisting := [findingC2P], new_findings := [], resolved := [],
    accepted_explanations := [], general_notes := [] }

theorem claim_C2_witness :
    (findingC2P ∈ dataC2P.persisting ∧
      findMatchingThread [threadC2P] findingC2P.title (some findingC2P.path)
        = some threadC2P) ∧
    (Effect.reply threadC2P.firstCommentId (bumpBody findingC2P)
        ∈ (postReview dataC2P "" "m" true [threadC2P]).effects ∧
      (postReview dataC2P "" "m" true [threadC2P]).inline
        = (dataC2P.new_findings.filter
            (fun g => anchorHas (parseDiffForValidLines "") g.path g.line)).map
            mkInlineComment) :=
  ⟨⟨by decide, by decide⟩,
   claim_C2_theorem dataC2P "" "m" [threadC2P] findingC2P threadC2P
     (by decide) (by decide)⟩

/-! ## Claim C8: malformed model output is fatal -/

/-- C8: when no parseable structured JSON block can be extracted from the
model response (no fenced block, or `JSON.parse` fails — `parseAnalysisJSON`
returns `none`), the run is fatal: the emitted effect list is exactly one
fallback notice comment, so no bump reply, no thread-resolve and no review
submission (hence no inline comment) is ever performed, and the run exits
with failure. -/
theorem claim_C8 (jsonParse : String → Option AnalysisData)
    (raw diff modelId prNumber failureMode : String) (threads : List Thread)
    (h : parseAnalysisJSON jsonParse raw = none) :
    (runFromRaw jsonParse raw diff modelId prNumber threads failureMode).effects
      = [Effect.comment fallbackMessage] ∧
    (runFromRaw jsonParse raw diff modelId prNumber threads failureMode).fatalError
      = true ∧
    (runFromRaw jsonParse raw diff modelId prNumber threads failureMode).exitFailure
      = true ∧
    (runFromRaw jsonParse raw diff modelId prNumber threads failureMode).effects.all
      (fun e => !(e.isReply || e.isResolve || e.isReview)) = true := by
  unfold runFromRaw
  rw [h]
  exact ⟨rfl, rfl, rfl, rfl⟩

/-- A `JSON.parse` model that always fails, for the witness. -/
def jsonParseNone : String → Option AnalysisData := fun _ => none

theorem claim_C8_witness :
    parseAnalysisJSON jsonParseNone "no fenced block here" = none ∧
    ((runFromRaw jsonParseNone "no fenced block here" "" "m" "1" [] "fail").effects
        = [Effect.comment fallbackMessage] ∧
      (runFromRaw jsonParseNone "no fenced block here" "" "m" "1" [] "fail").fatalError
        = true ∧
      (runFromRaw jsonParseNone "no fenced block here" "" "m" "1" [] "fail").exitFailure
        = true ∧
      (runFromRaw jsonParseNone "no fenced block here" "" "m" "1" [] "fail").effects.all
        (fun e => !(e.isReply || e.isResolve || e.isReview)) = true) :=
  ⟨by decide,
   claim_C8 jsonParseNone "no fenced block here" "" "m" "1" "fail" [] (by decide)⟩

/-! ## Claim C7: unplaceable findings fall back to the summary -/

theorem strPre_append (a b : String) : a.data <+: (a ++ b).data := by
  rw [strData_append]
  exact List.prefix_append a.data b.data

theorem foldl_append_acc_pre {α : Type} (g : α → String) (l : List α)
    (b : String) :
    b.data <+: (l.foldl (fun acc x => acc ++ g x) b).data := by
  induction l generalizing b with
  | nil => exact List.prefix_rfl
  | cons x xs ih =>
    rw [List.foldl_cons]
    exact (strPre_append b (g x)).trans (ih (b ++ g x))

theorem mem_foldl_append {α : Type} (g : α → String) :
    ∀ (l : List α) (b : String) (f : α), f ∈ l →
      (g f).data <:+: (l.foldl (fun acc x => acc ++ g x) b).data
  | [], _, f, h => absurd h (List.not_mem_nil f)
  | x :: xs, b, f, h => by
    rw [List.foldl_cons]
    rcases List.mem_cons.mp h with rfl | h1
    · have h2 : (g f).data <:+: (b ++ g f).data :=
        ⟨b.data, [], by rw [List.append_nil, strData_append]⟩
      exact h2.trans (foldl_append_acc_pre g xs (b ++ g f)).isInfix
    · exact mem_foldl_append g xs (b ++ g x) f h1

/-- `${f.body || f.title}` sits inside the finding's "Additional Findings"
entry. -/
theorem body_infix_section (f : Finding) :
    (jsOrElse f.body f.title).data <:+: (unplaceableSection f).data := by
  unfold unplaceableSection
  refine ⟨(unplaceableHead f).data, "\n\n".data, ?_⟩
  rw [strData_append, strData_append, List.append_assoc]

/-- C7: a finding whose (path, line) is not in the valid-anchor set is not
dropped and is not an error: it lands in the `unplaceable` partition rather
than among the inline comments, its full body (`f.body || f.title`) appears
verbatim inside the review body posted at PR level, and — because
`countIssues` is computed from the analysis data independently of placement —
a must_fix finding routed this way still counts in the must-fix bucket and
still makes the run fail (block) under the default failure mode. -/
theorem claim_C7 (data : AnalysisData) (diff modelId prNumber : String)
    (threads : List Thread) (isReReview : Bool) (f : Finding)
    (hmem : f ∈ findingsForInline data isReReview)
    (hnot : anchorHas (parseDiffForValidLines diff) f.path f.line = false)
    (hprio : f.priority = "must_fix") :
    f ∈ (postReview data diff modelId isReReview threads).unplaceable ∧
    f ∉ (findingsForInline data isReReview).filter
        (fun g => anchorHas (parseDiffForValidLines diff) g.path g.line) ∧
    (jsOrElse f.body f.title).data <:+:
      (buildReviewBody data isReReview modelId
        (postReview data diff modelId isReReview threads).unplaceable).data ∧
    1 ≤ (countIssues data).highPriorityCount ∧
    (runFromParse (some data) diff modelId prNumber threads "fail").exitFailure
      = true := by
  have hfU : f ∈ (findingsForInline data isReReview).filter
      (fun g => !anchorHas (parseDiffForValidLines diff) g.path g.line) := by
    rw [List.mem_filter]
    exact ⟨hmem, by rw [hnot]; rfl⟩
  have hall : f ∈ allFindings data := by
    unfold allFindings
    unfold findingsForInline at hmem
    cases isReReview with
    | true =>
      rw [if_pos rfl] at hmem
      exact List.mem_append_right _ hmem
    | false =>
      rw [if_neg (by exact Bool.false_ne_true)] at hmem
      exact List.mem_append_left _ (List.mem_append_left _ hmem)
  have hmf : f ∈ (allFindings data).filter (fun g => g.priority == "must_fix") := by
    rw [List.mem_filter]
    refine ⟨hall, ?_⟩
    rw [hprio]
    rfl
  have htot : ((countIssues data).totalIssues != 0) = true := by
    have h1 : 0 < (allFindings data).length :=
      List.length_pos.mpr (List.ne_nil_of_mem hall)
    have h2 : (countIssues data).totalIssues = (allFindings data).length := rfl
    rw [h2, bne_iff_ne]
    exact Nat.pos_iff_ne_zero.mp h1
  refine ⟨hfU, ?_, ?_, ?_, ?_⟩
  · intro hbad
    rw [List.mem_filter] at hbad
    rw [hnot] at hbad
    exact absurd hbad.2 (by simp)
  · have hlen : (((findingsForInline data isReReview).filter
        (fun g => !anchorHas (parseDiffForValidLines diff) g.path g.line)).length
          != 0) = true := by
      rw [bne_iff_ne]
      intro h0
      exact List.ne_nil_of_mem hfU (List.eq_nil_of_length_eq_zero h0)
    show (jsOrElse f.body f.title).data <:+:
      (buildReviewBody data isReReview modelId
        ((findingsForInline data isReReview).filter
          (fun g => !anchorHas (parseDiffForValidLines diff) g.path g.line))).data
    dsimp only [buildReviewBody]
    rw [if_pos hlen]
    refine List.IsInfix.trans ?_ (strPre_append _ _).isInfix
    exact (body_infix_section f).trans
      (mem_foldl_append unplaceableSection _ _ f hfU)
  · exact List.length_pos.mpr (List.ne_nil_of_mem hmf)
  · dsimp only [runFromParse]
    rw [if_pos (by rw [Bool.or_eq_true]; exact Or.inl htot),
      if_neg (by decide)]

/-- A must_fix finding at a line far outside the diff's anchors. -/
def findingC7 : Finding :=
  { priority := "must_fix", title := "Bulk operation missing", path := "src/a.ts",
    line := 999, body := some "Use bulk operations.", bump_message := none }

def dataC7 : AnalysisData :=
  { status := "BLOCK_MERGE", summary := "", findings := [], persisting := [],
    new_findings := [findingC7], resolved := [], accepted_explanations := [],
    general_notes := [] }

def diffC7 : String := "+++ b/src/a.ts\n@@ -1,2 +1,2 @@\n one\n two"

theorem claim_C7_witness :
    (findingC7 ∈ findingsForInline dataC7 true ∧
      anchorHas (parseDiffForValidLines diffC7) findingC7.path findingC7.line
        = false ∧
      findingC7.priority = "must_fix") ∧
    (findingC7 ∈ (postReview dataC7 diffC7 "m" true []).unplaceable ∧
      findingC7 ∉ (findingsForInline dataC7 true).filter
          (fun g => anchorHas (parseDiffForValidLines diffC7) g.path g.line) ∧
      (jsOrElse findingC7.body findingC7.title).data <:+:
        (buildReviewBody dataC7 true "m"
          (postReview dataC7 diffC7 "m" true []).unplaceable).data ∧
      1 ≤ (countIssues dataC7).highPriorityCount ∧
      (runFromParse (some dataC7) diffC7 "m" "1" [] "fail").exitFailure = true) :=
  ⟨⟨by decide, by decide, rfl⟩,
   claim_C7 dataC7 diffC7 "m" "1" [] true findingC7 (by decide) (by decide) rfl⟩
